import Mathlib

/-!
Verification of the shopping-cart extraction app (`src/app.py`).

The file embeds the two core routines of the app in Lean:

* `extract_cart_df` — the vision-API extraction routine: a bounded retry
  loop around one chat-completion call, followed by response parsing
  (tool-call arguments, then free text, then a bracket-extraction
  fallback) and coercion of the parsed item list into a fixed
  four-column table.
* `create_expense_report` — the expense-report generator: per-row
  amounts, a grand total, a Korean-numeral rendering of the total
  (`number_to_korean`), per-item calculation lines, and two
  string-template documents.

Python-specific effects are made explicit: the network call is a
parameter `call : Nat → ApiResult` giving the outcome of each attempt,
`time.sleep` calls are collected in a list, uncaught Python exceptions
become `Except PyError` / `Option` error values, and the in-place
DataFrame mutation of `create_expense_report` is state passing (the
updated table is returned).  Korean column and field names from the
source are romanised where Lean identifiers cannot carry them; the
string data itself stays Korean.
-/

/-- JSON values, the shape `json.loads` produces.  Numbers are modelled
as integers: the app's schema and prompts only ever produce integer
fields, and no claim involves floats. -/
inductive Json where
  | null
  | bool (b : Bool)
  | num (n : Int)
  | str (s : String)
  | arr (elems : List Json)
  | obj (fields : List (String × Json))

/-- Whitespace characters skipped by the JSON parser (the four
whitespace characters of the JSON grammar, which are also the common
Python `str.strip` characters exercised here). -/
def isPyWs (c : Char) : Bool :=
  c = ' ' || c = '\t' || c = '\n' || c = '\r'

/-- Model of Python's `str.strip()`: drop whitespace from both ends. -/
def pyStrip (s : String) : String :=
  String.mk (((s.data.dropWhile isPyWs).reverse.dropWhile isPyWs).reverse)

/-- Drop leading JSON whitespace from a character list. -/
def skipWs : List Char → List Char
  | c :: cs => if isPyWs c then skipWs cs else c :: cs
  | [] => []

/-- One escape character inside a JSON string literal. -/
def escChar (c : Char) : Option Char :=
  if c = '"' then some '"'
  else if c = '\\' then some '\\'
  else if c = '/' then some '/'
  else if c = 'n' then some '\n'
  else if c = 't' then some '\t'
  else if c = 'r' then some '\r'
  else if c = 'b' then some (Char.ofNat 8)
  else if c = 'f' then some (Char.ofNat 12)
  else none

/-- Parse the body of a JSON string literal (the opening quote already
consumed), accumulating characters until the closing quote. -/
def parseStrBody : List Char → List Char → Option (String × List Char)
  | [], _ => none
  | '"' :: cs, acc => some (String.mk acc.reverse, cs)
  | '\\' :: e :: cs, acc =>
    match escChar e with
    | some ch => parseStrBody cs (ch :: acc)
    | none => none
  | ['\\'], _ => none
  | c :: cs, acc => parseStrBody cs (c :: acc)

/-- Is `c` a decimal digit? -/
def isDigitCh (c : Char) : Bool := '0' ≤ c && c ≤ '9'

/-- Consume a run of decimal digits, accumulating their value. -/
def takeDigits : List Char → Nat → (Nat × List Char)
  | c :: cs, acc =>
    if isDigitCh c then takeDigits cs (acc * 10 + (c.toNat - 48)) else (acc, c :: cs)
  | [], acc => (acc, [])

/-- Parse a JSON integer (optional minus sign, at least one digit). -/
def parseNum : List Char → Option (Int × List Char)
  | '-' :: c :: cs =>
    if isDigitCh c then
      let p := takeDigits cs (c.toNat - 48)
      some (-(p.1 : Int), p.2)
    else none
  | c :: cs =>
    if isDigitCh c then
      let p := takeDigits cs (c.toNat - 48)
      some ((p.1 : Int), p.2)
    else none
  | [] => none

/-- Parser modes: a single value, the tail of an array after one
element, or the tail of an object after one member. -/
inductive PMode where
  | val
  | arrTail
  | objTail
deriving DecidableEq

/-- Parser intermediate results, one per mode. -/
inductive PRes where
  | v (j : Json)
  | vs (elems : List Json)
  | ms (fields : List (String × Json))

/-- Recursive-descent JSON parser, fuel-indexed so that it is
structurally recursive (and hence evaluates inside the kernel).  It
models `json.loads` on the grammar the app exercises: null, booleans,
integers, strings with basic escapes, arrays and objects. -/
def parseP : Nat → PMode → List Char → Option (PRes × List Char)
  | 0, _, _ => none
  | fuel + 1, .val, cs =>
    match skipWs cs with
    | [] => none
    | '"' :: rest => (parseStrBody rest []).map (fun p => (.v (.str p.1), p.2))
    | '[' :: rest =>
      match skipWs rest with
      | ']' :: r2 => some (.v (.arr []), r2)
      | r2 =>
        match parseP fuel .val r2 with
        | some (.v j0, r3) =>
          match parseP fuel .arrTail r3 with
          | some (.vs js, r4) => some (.v (.arr (j0 :: js)), r4)
          | _ => none
        | _ => none
    | '{' :: rest =>
      match skipWs rest with
      | '}' :: r2 => some (.v (.obj []), r2)
      | '"' :: r2 =>
        match parseStrBody r2 [] with
        | some (k, r3) =>
          match skipWs r3 with
          | ':' :: r4 =>
            match parseP fuel .val r4 with
            | some (.v j0, r5) =>
              match parseP fuel .objTail r5 with
              | some (.ms ps, r6) => some (.v (.obj ((k, j0) :: ps)), r6)
              | _ => none
            | _ => none
          | _ => none
        | none => none
      | _ => none
    | 'n' :: 'u' :: 'l' :: 'l' :: rest => some (.v .null, rest)
    | 't' :: 'r' :: 'u' :: 'e' :: rest => some (.v (.bool true), rest)
    | 'f' :: 'a' :: 'l' :: 's' :: 'e' :: rest => some (.v (.bool false), rest)
    | other => (parseNum other).map (fun p => (.v (.num p.1), p.2))
  | fuel + 1, .arrTail, cs =>
    match skipWs cs with
    | ']' :: r => some (.vs [], r)
    | ',' :: r =>
      match parseP fuel .val r with
      | some (.v j, r2) =>
        match parseP fuel .arrTail r2 with
        | some (.vs js, r3) => some (.vs (j :: js), r3)
        | _ => none
      | _ => none
    | _ => none
  | fuel + 1, .objTail, cs =>
    match skipWs cs with
    | '}' :: r => some (.ms [], r)
    | ',' :: r =>
      match skipWs r with
      | '"' :: r2 =>
        match parseStrBody r2 [] with
        | some (k, r3) =>
          match skipWs r3 with
          | ':' :: r4 =>
            match parseP fuel .val r4 with
            | some (.v j, r5) =>
              match parseP fuel .objTail r5 with
              | some (.ms ps, r6) => some (.ms ((k, j) :: ps), r6)
              | _ => none
            | _ => none
          | _ => none
        | none => none
      | _ => none
    | _ => none

/-- Model of `json.loads`: parse one value and require only trailing
whitespace after it; `none` models a raised `json.JSONDecodeError`. -/
def jsonLoads (s : String) : Option Json :=
  match parseP (s.length + 2) .val s.data with
  | some (.v j, rest) => if skipWs rest = [] then some j else none
  | _ => none

/-- Model of `re.search(r"\[.*\]", raw, re.S)`: with a greedy `.*` that
also matches newlines, the match (when it exists) runs from the first
`[` of the string to the last `]`, provided the former precedes the
latter. -/
def bracketSlice (s : String) : Option String :=
  let cs := s.data
  match cs.findIdx? (· = '[') with
  | none => none
  | some i =>
    match cs.reverse.findIdx? (· = ']') with
    | none => none
    | some rj =>
      let j := cs.length - 1 - rj
      if i < j then some (String.mk ((cs.drop i).take (j - i + 1))) else none

/-- Python `dict.get` on a parsed JSON object: later duplicate keys
shadow earlier ones, as in a Python dict built by `json.loads`. -/
def objGet (fields : List (String × Json)) (key : String) : Option Json :=
  (fields.reverse.find? (fun p => p.1 == key)).map (fun p => p.2)

/-- The fixed column set of the extraction result
(name, spec, quantity, expected unit price). -/
def CART_COLUMNS : List String := ["내용", "규격", "수량", "예상단가"]

/-- Coerce one parsed item object into the fixed four-column row of
`pd.DataFrame(items, columns=CART_COLUMNS)`: each cell is the object's
value for that column, and a missing field becomes an absent (`none`,
i.e. NaN) entry. -/
def toRow (fields : List (String × Json)) : List (Option Json) :=
  CART_COLUMNS.map (objGet fields)

/-- View a JSON value as an object. -/
def asObj : Json → Option (List (String × Json))
  | .obj fields => some fields
  | _ => none

/-- Require every element of an item list to be a JSON object. -/
def allObjs : List Json → Option (List (List (String × Json)))
  | [] => some []
  | j :: js =>
    match asObj j, allObjs js with
    | some o, some os => some (o :: os)
    | _, _ => none

/-- Uncaught Python exceptions of the extraction routine:
`json.JSONDecodeError` from `json.loads`, `AttributeError` from calling
`.get` on a non-dict, and the `ValueError`-class failures of
`pd.DataFrame` on item lists that are not lists of dicts. -/
inductive PyError where
  | jsonDecodeError
  | attributeError
  | valueError
deriving DecidableEq

/-- A pandas DataFrame as the app observes it: a column list and the
cell rows (a `none` cell is a missing/NaN entry). -/
structure DataFrame where
  columns : List String
  rows : List (List (Option Json))

/-- `pd.DataFrame(items, columns=CART_COLUMNS)` on the parsed `items`
value: a list whose elements are all objects becomes one row per
object; anything else is modelled as the constructor raising. -/
def mkCartRows : Json → Except PyError (List (List (Option Json)))
  | .arr es =>
    match allObjs es with
    | some objs => .ok (objs.map toRow)
    | none => .error .valueError
  | _ => .error .valueError

/-- The first tool call's `function.arguments`: the OpenAI client hands
the app either a JSON string (the `isinstance(arguments, str)` branch
of the source) or an already-parsed value. -/
inductive ToolArgs where
  | argStr (s : String)
  | argJson (j : Json)

/-- The part of `res.choices[0].message` the app reads. -/
structure ApiMessage where
  tool_calls : List ToolArgs
  content : String

/-- Outcome of one `client.chat.completions.create` call: a response, or
one of the two retried exceptions (`RateLimitError`,
`APIConnectionError`). -/
inductive ApiResult where
  | ok (msg : ApiMessage)
  | rateLimitOrConnError

/-- The argument payload after the `isinstance(arguments, str)` check:
a string payload goes through `json.loads` (`none` models the raised
decode error), an already-parsed payload is used as is. -/
def argVal : ToolArgs → Option Json
  | .argStr s => jsonLoads s
  | .argJson j => some j

/-- Lines 75–91 of `app.py`: read `items` out of the response, in
priority order.  A tool call wins; its argument payload is parsed as
JSON and `arguments.get("items", [])` is read (`.get` on a non-dict
raises `AttributeError`).  Otherwise the stripped free-text content is
parsed as JSON; on failure the first `[...]` slice found by the regex
is parsed — note that this second `json.loads` sits inside the
`except json.JSONDecodeError` handler in the source, so its own failure
is an uncaught exception.  With no bracket match, `items` keeps its
initial value `[]`. -/
def parse_response (msg : ApiMessage) : Except PyError Json :=
  match msg.tool_calls with
  | tc :: _ =>
    match argVal tc with
    | none => .error .jsonDecodeError
    | some j =>
      match j with
      | .obj fields => .ok ((objGet fields "items").getD (.arr []))
      | _ => .error .attributeError
  | [] =>
    let raw := pyStrip msg.content
    match jsonLoads raw with
    | some j => .ok j
    | none =>
      match bracketSlice raw with
      | some sub =>
        match jsonLoads sub with
        | some j => .ok j
        | none => .error .jsonDecodeError
      | none => .ok (.arr [])

/-- The retry loop of lines 55–73: `i` is the current attempt index and
the third argument the number of attempts still allowed after this one
(`max_retries - i`).  Returns the response (or `none` after
exhaustion), the number of attempts made, and the list of `time.sleep`
durations in order. -/
def retryLoop (call : Nat → ApiResult) (i : Nat) : Nat → Option ApiMessage × Nat × List Nat
  | 0 =>
    match call i with
    | .ok m => (some m, 1, [])
    | .rateLimitOrConnError => (none, 1, [])
  | rem + 1 =>
    match call i with
    | .ok m => (some m, 1, [])
    | .rateLimitOrConnError =>
      let p := retryLoop call (i + 1) rem
      (p.1, p.2.1 + 1, (2 ^ i) :: p.2.2)

/-- `extract_cart_df(image_bytes, api_key, model, max_retries)`:
the attempt-indexed outcome of the chat-completion call stands in for
the network.  Returns the result (the DataFrame, or the uncaught
exception), the number of attempts made, and the sleep durations. -/
def extract_cart_df (call : Nat → ApiResult) (max_retries : Nat) :
    Except PyError DataFrame × Nat × List Nat :=
  match retryLoop call 0 max_retries with
  | (none, n, s) => (.ok ⟨CART_COLUMNS, []⟩, n, s)
  | (some msg, n, s) =>
    match parse_response msg with
    | .error e => (.error e, n, s)
    | .ok items =>
      match mkCartRows items with
      | .error e => (.error e, n, s)
      | .ok rows => (.ok ⟨CART_COLUMNS, rows⟩, n, s)

/-- A successful call at attempt `i` ends the retry loop at once: one
attempt, no sleeping. -/
theorem retryLoop_ok (msg : ApiMessage) (call : Nat → ApiResult) (i rem : Nat)
    (h : call i = .ok msg) : retryLoop call i rem = (some msg, 1, []) := by
  cases rem <;> simp [retryLoop, h]

/-- When every attempt fails with a retried error, the loop makes
`rem + 1` attempts, returns no response, and sleeps `2 ^ k` seconds
after each non-final attempt. -/
theorem retryLoop_allFail (call : Nat → ApiResult)
    (h : ∀ k, call k = .rateLimitOrConnError) (rem i : Nat) :
    retryLoop call i rem =
      (none, rem + 1, (List.range rem).map (fun k => 2 ^ (i + k))) := by
  induction rem generalizing i with
  | zero => simp [retryLoop, h i]
  | succ m ih =>
    have hfun : (fun k => 2 ^ (i + Nat.succ k)) = (fun k => 2 ^ (i + 1 + k)) := by
      funext k
      congr 1
      omega
    simp [retryLoop, h i, ih (i + 1), List.range_succ_eq_map, List.map_map,
      Function.comp_def, hfun]

/-- The retry loop always makes at least one attempt. -/
theorem retryLoop_attempts_pos (call : Nat → ApiResult) (i rem : Nat) :
    1 ≤ (retryLoop call i rem).2.1 := by
  cases rem <;> cases h : call i <;> simp [retryLoop, h]

/-- Sleep schedule of the retry loop: one sleep of `2 ^ (i + k)` seconds
after attempt `i + k` for every attempt except the last. -/
theorem retryLoop_sleeps (call : Nat → ApiResult) (rem i : Nat) :
    (retryLoop call i rem).2.2 =
      (List.range ((retryLoop call i rem).2.1 - 1)).map (fun k => 2 ^ (i + k)) := by
  induction rem generalizing i with
  | zero => cases h : call i <;> simp [retryLoop, h]
  | succ m ih =>
    cases h : call i with
    | ok msg => simp [retryLoop, h]
    | rateLimitOrConnError =>
      have hpos := retryLoop_attempts_pos call (i + 1) m
      obtain ⟨n, hn⟩ : ∃ n, (retryLoop call (i + 1) m).2.1 = n + 1 :=
        ⟨(retryLoop call (i + 1) m).2.1 - 1, by omega⟩
      have hfun : (fun k => 2 ^ (i + Nat.succ k)) = (fun k => 2 ^ (i + 1 + k)) := by
        funext k
        congr 1
        omega
      simp [retryLoop, h, ih (i + 1), hn, List.range_succ_eq_map, List.map_map,
        Function.comp_def, hfun]

/-- The attempt count and sleep list of `extract_cart_df` are those of
its retry loop, whatever the parsing stage does. -/
theorem extract_cart_df_meta (call : Nat → ApiResult) (N : Nat) :
    (extract_cart_df call N).2 = (retryLoop call 0 N).2 := by
  rcases hr : retryLoop call 0 N with ⟨res, n, s⟩
  cases res with
  | none => simp [extract_cart_df, hr]
  | some msg =>
    cases hp : parse_response msg with
    | error e => simp [extract_cart_df, hr, hp]
    | ok items =>
      cases hm : mkCartRows items with
      | error e => simp [extract_cart_df, hr, hp, hm]
      | ok rows => simp [extract_cart_df, hr, hp, hm]

/-- `allObjs` preserves length. -/
theorem allObjs_length : ∀ es objs, allObjs es = some objs → objs.length = es.length := by
  intro es
  induction es with
  | nil =>
    intro objs h
    injection h with h
    simp [← h]
  | cons j js ih =>
    intro objs h
    unfold allObjs at h
    cases h1 : asObj j with
    | none => rw [h1] at h; simp at h
    | some o =>
      rw [h1] at h
      cases h2 : allObjs js with
      | none => rw [h2] at h; simp at h
      | some os =>
        rw [h2] at h
        simp at h
        simp [← h, ih os h2]

/-- Claim C1: response parsing of `extract_cart_df` follows the priority
order.  (1) A tool call wins: its argument payload is parsed as JSON and
the `items` field is read; the produced table has one row per item and
its cells are the items' fields, column by column, with missing fields
becoming absent entries.  (2) With no tool call, the stripped free-text
content is parsed directly as JSON.  (3) If that parse fails, the first
`[...]` slice found by the regex is parsed instead.  In every case the
item list is coerced into the fixed four-column schema. -/
theorem claim_C1_parse_priority :
    (∀ (N : Nat) (msg : ApiMessage) (tc : ToolArgs) (tcs : List ToolArgs)
        (fields : List (String × Json)) (es : List Json)
        (objs : List (List (String × Json))),
        msg.tool_calls = tc :: tcs →
        argVal tc = some (.obj fields) →
        objGet fields "items" = some (.arr es) →
        allObjs es = some objs →
        (extract_cart_df (fun _ => .ok msg) N).1 = .ok ⟨CART_COLUMNS, objs.map toRow⟩ ∧
          (objs.map toRow).length = es.length ∧
          ∀ o ∈ objs, ∀ c : Nat, (toRow o)[c]? = (CART_COLUMNS[c]?).map (objGet o)) ∧
    (∀ (N : Nat) (msg : ApiMessage) (es : List Json)
        (objs : List (List (String × Json))),
        msg.tool_calls = [] →
        jsonLoads (pyStrip msg.content) = some (.arr es) →
        allObjs es = some objs →
        (extract_cart_df (fun _ => .ok msg) N).1 = .ok ⟨CART_COLUMNS, objs.map toRow⟩) ∧
    (∀ (N : Nat) (msg : ApiMessage) (sub : String) (es : List Json)
        (objs : List (List (String × Json))),
        msg.tool_calls = [] →
        jsonLoads (pyStrip msg.content) = none →
        bracketSlice (pyStrip msg.content) = some sub →
        jsonLoads sub = some (.arr es) →
        allObjs es = some objs →
        (extract_cart_df (fun _ => .ok msg) N).1 = .ok ⟨CART_COLUMNS, objs.map toRow⟩) := by
  refine ⟨?_, ?_, ?_⟩
  · intro N msg tc tcs fields es objs h1 h2 h3 h4
    refine ⟨?_, ?_, ?_⟩
    · simp [extract_cart_df, retryLoop_ok msg (fun _ => .ok msg) 0 N rfl, parse_response, h1, h2, h3,
        mkCartRows, h4]
    · simp [allObjs_length es objs h4]
    · intro o _ c
      simp [toRow]
  · intro N msg es objs h1 h2 h3
    simp [extract_cart_df, retryLoop_ok msg (fun _ => .ok msg) 0 N rfl, parse_response, h1, h2,
      mkCartRows, h3]
  · intro N msg sub es objs h1 h2 h3 h4 h5
    simp [extract_cart_df, retryLoop_ok msg (fun _ => .ok msg) 0 N rfl, parse_response, h1, h2, h3, h4,
      mkCartRows, h5]

/-- Tool-call response used in the C1 witness: the argument payload is
the JSON string `{"items":[{"내용":"pen","규격":"","수량":2,"예상단가":500}]}`. -/
def toolMsgExample : ApiMessage :=
  ⟨[.argStr "\x7b\"items\":[\x7b\"내용\":\"pen\",\"규격\":\"\",\"수량\":2,\"예상단가\":500\x7d]\x7d"], ""⟩

/-- Free-text response used in the C1 witness: the content is itself a
JSON array. -/
def directMsgExample : ApiMessage :=
  ⟨[], "[\x7b\"내용\":\"pen\",\"규격\":\"\",\"수량\":2,\"예상단가\":500\x7d]"⟩

/-- Free-text response used in the C1 witness: the spec's
bracket-extraction example, JSON embedded in prose. -/
def bracketMsgExample : ApiMessage :=
  ⟨[], "blah [\x7b\"내용\":\"pen\",\"규격\":\"\",\"수량\":2,\"예상단가\":500\x7d] trailing"⟩

/-- The single row produced by all three C1 witness messages. -/
def penRow : List (Option Json) :=
  [some (.str "pen"), some (.str ""), some (.num 2), some (.num 500)]

/-- Witness for C1: all three parsing paths at the spec's concrete
examples, each producing exactly one row with the four field values. -/
theorem claim_C1_parse_priority_witness :
    (extract_cart_df (fun _ => .ok toolMsgExample) 2).1 = .ok ⟨CART_COLUMNS, [penRow]⟩ ∧
    (extract_cart_df (fun _ => .ok directMsgExample) 2).1 = .ok ⟨CART_COLUMNS, [penRow]⟩ ∧
    (extract_cart_df (fun _ => .ok bracketMsgExample) 2).1 = .ok ⟨CART_COLUMNS, [penRow]⟩ :=
  ⟨(claim_C1_parse_priority.1 2 toolMsgExample _ _ _ _ _ rfl rfl rfl rfl).1,
   claim_C1_parse_priority.2.1 2 directMsgExample _ _ rfl rfl rfl,
   claim_C1_parse_priority.2.2 2 bracketMsgExample _ _ _ rfl rfl rfl rfl rfl⟩

/-- Claim C2: if every chat-completion call fails with a rate-limit or
connectivity error, `extract_cart_df` with `max_retries = N` makes
exactly `N + 1` attempts and then returns, without raising, an empty
DataFrame carrying the declared column set. -/
theorem claim_C2_retry_exhaustion (N : Nat) (call : Nat → ApiResult)
    (h : ∀ k, call k = .rateLimitOrConnError) :
    (extract_cart_df call N).2.1 = N + 1 ∧
    (extract_cart_df call N).1 = .ok ⟨["내용", "규격", "수량", "예상단가"], []⟩ := by
  simp [extract_cart_df, retryLoop_allFail call h N 0, CART_COLUMNS]

/-- Witness for C2 at `max_retries = 2`: three attempts and the empty
four-column result. -/
theorem claim_C2_retry_exhaustion_witness :
    (extract_cart_df (fun _ => ApiResult.rateLimitOrConnError) 2).2.1 = 2 + 1 ∧
    (extract_cart_df (fun _ => ApiResult.rateLimitOrConnError) 2).1 =
      .ok ⟨["내용", "규격", "수량", "예상단가"], []⟩ :=
  claim_C2_retry_exhaustion 2 (fun _ => ApiResult.rateLimitOrConnError) (fun _ => rfl)

/-- Claim C8: the sleep list of `extract_cart_df` is exactly
`[2^0, 2^1, …]`, one entry per attempt except the last — a delay of
`2^k` seconds follows attempt `k` exactly when retries remain, and no
delay follows the final attempt. -/
theorem claim_C8_backoff_schedule (call : Nat → ApiResult) (N : Nat) :
    (extract_cart_df call N).2.2 =
      (List.range ((extract_cart_df call N).2.1 - 1)).map (fun k => 2 ^ k) := by
  have h := extract_cart_df_meta call N
  have h1 : (extract_cart_df call N).2.1 = (retryLoop call 0 N).2.1 := by rw [h]
  have h2 : (extract_cart_df call N).2.2 = (retryLoop call 0 N).2.2 := by rw [h]
  rw [h1, h2, retryLoop_sleeps]
  simp

/-- Counterexample for claim C6: on content whose direct JSON parse
fails but whose bracket slice `[oops]` is itself invalid JSON, the
second `json.loads` runs inside the `except` handler and its failure is
uncaught — `extract_cart_df` raises `json.JSONDecodeError` to the
caller instead of returning an empty item list. -/
theorem claim_C6_counterexample :
    extract_cart_df (fun _ => .ok ⟨[], "x [oops] y"⟩) 2 =
      (.error .jsonDecodeError, 1, []) := rfl

/-- Claim C6 as amended: malformed model output is caught locally,
without retrying, only up to the bracket fallback.  (1) If the free
text fails direct JSON parsing and contains no `[...]` slice, the
function returns the empty four-column result after one attempt.
(2) If the tool-call payload parses but lacks an `items` array, the
default `[]` likewise yields the empty result.  (3) But if a `[...]`
slice is found and it too fails to parse, the decode error propagates
to the caller. -/
theorem claim_C6_malformed_output :
    (∀ (N : Nat) (msg : ApiMessage),
        msg.tool_calls = [] →
        jsonLoads (pyStrip msg.content) = none →
        bracketSlice (pyStrip msg.content) = none →
        extract_cart_df (fun _ => .ok msg) N = (.ok ⟨CART_COLUMNS, []⟩, 1, [])) ∧
    (∀ (N : Nat) (msg : ApiMessage) (tc : ToolArgs) (tcs : List ToolArgs)
        (fields : List (String × Json)),
        msg.tool_calls = tc :: tcs →
        argVal tc = some (.obj fields) →
        objGet fields "items" = none →
        extract_cart_df (fun _ => .ok msg) N = (.ok ⟨CART_COLUMNS, []⟩, 1, [])) ∧
    (∀ (N : Nat) (msg : ApiMessage) (sub : String),
        msg.tool_calls = [] →
        jsonLoads (pyStrip msg.content) = none →
        bracketSlice (pyStrip msg.content) = some sub →
        jsonLoads sub = none →
        extract_cart_df (fun _ => .ok msg) N = (.error .jsonDecodeError, 1, [])) := by
  refine ⟨?_, ?_, ?_⟩
  · intro N msg h1 h2 h3
    simp [extract_cart_df, retryLoop_ok msg (fun _ => .ok msg) 0 N rfl, parse_response,
      h1, h2, h3, mkCartRows, allObjs]
  · intro N msg tc tcs fields h1 h2 h3
    simp [extract_cart_df, retryLoop_ok msg (fun _ => .ok msg) 0 N rfl, parse_response,
      h1, h2, h3, mkCartRows, allObjs]
  · intro N msg sub h1 h2 h3 h4
    simp [extract_cart_df, retryLoop_ok msg (fun _ => .ok msg) 0 N rfl, parse_response,
      h1, h2, h3, h4]

/-- Witness for C6 (amended): the three concrete cases — bracketless
garbage, a tool payload without `items`, and a bad bracket slice. -/
theorem claim_C6_malformed_output_witness :
    extract_cart_df (fun _ => .ok ⟨[], "no json at all"⟩) 2 =
      (.ok ⟨CART_COLUMNS, []⟩, 1, []) ∧
    extract_cart_df (fun _ => .ok ⟨[.argStr "\x7b\"foo\": 1\x7d"], ""⟩) 2 =
      (.ok ⟨CART_COLUMNS, []⟩, 1, []) ∧
    extract_cart_df (fun _ => .ok ⟨[], "see [broken json] here"⟩) 2 =
      (.error .jsonDecodeError, 1, []) :=
  ⟨claim_C6_malformed_output.1 2 ⟨[], "no json at all"⟩ rfl rfl rfl,
   claim_C6_malformed_output.2.1 2 ⟨[.argStr "\x7b\"foo\": 1\x7d"], ""⟩ _ _ _ rfl rfl rfl,
   claim_C6_malformed_output.2.2 2 ⟨[], "see [broken json] here"⟩ _ rfl rfl rfl rfl⟩

/-- One row of the DataFrame handed to `create_expense_report`.  The
source's Korean column names are romanised: `naeyong` = 내용 (name),
`gyugyeok` = 규격 (spec), `suryang` = 수량 (quantity), `yesangDanga` =
예상단가 (expected unit price), `geumaek` = 금액 (amount).  `geumaek`
is optional because the 금액 column need not exist before the function
adds it. -/
structure ExpenseRow where
  naeyong : String
  gyugyeok : String
  suryang : Int
  yesangDanga : Int
  geumaek : Option Int
deriving DecidableEq

/-- Line 100 of `app.py` (and line 242 for the concatenated table):
`df['금액'] = df['수량'] * df['예상단가']` — set every row's amount
column to quantity times unit price, in place. -/
def addAmount (df : List ExpenseRow) : List ExpenseRow :=
  df.map (fun row => { row with geumaek := some (row.suryang * row.yesangDanga) })

/-- Line 101 / 243: `df['금액'].sum()`. -/
def totalOf (df : List ExpenseRow) : Int :=
  (df.map (fun row => row.geumaek.getD 0)).sum

/-- The numeral words of `number_to_korean`. -/
def nums : List String := ["영", "일", "이", "삼", "사", "오", "육", "칠", "팔", "구"]

/-- The cross-group unit words of `number_to_korean` — indexing past
`조` is the out-of-range case. -/
def units : List String := ["", "만", "억", "조"]

/-- Decimal digits of `n`, least significant first, fuel-indexed so the
recursion is structural; `digitsLSD` instantiates the fuel. -/
def digitsLSDAux : Nat → Nat → List Nat
  | 0, _ => []
  | fuel + 1, n => if n = 0 then [] else n % 10 :: digitsLSDAux fuel (n / 10)

/-- Decimal digits of `n`, least significant first ( `[]` for 0 ). -/
def digitsLSD (n : Nat) : List Nat := digitsLSDAux n n

/-- Base-10000 groups of `n`, least significant first, fuel-indexed. -/
def groupsLSDAux : Nat → Nat → List Nat
  | 0, _ => []
  | fuel + 1, n => if n = 0 then [] else n % 10000 :: groupsLSDAux fuel (n / 10000)

/-- Base-10000 groups of `n`, least significant first ( `[]` for 0 ) —
the "4-digit groups from the least-significant digit" of the spec. -/
def groupsLSD (n : Nat) : List Nat := groupsLSDAux n n

/-- The tokens `number_to_korean` emits for one digit `d` at position
`p` from the right (so `digit_pos = p % 4`, `unit_pos = p / 4`): a zero
digit emits nothing; a nonzero digit emits its numeral word, then 천/백/십
by `digit_pos`, then — only when `digit_pos = 0` — `units[unit_pos]`,
whose lookup is the possible `IndexError` (modelled as `none`). -/
def tok (d p : Nat) : Option String :=
  if d = 0 then some "" else
    let w := nums.getD d ""
    let mid :=
      if p % 4 = 3 then "천"
      else if p % 4 = 2 then "백"
      else if p % 4 = 1 then "십"
      else ""
    if p % 4 = 0 ∧ 0 < p / 4 then
      match units[p / 4]? with
      | some u => some (w ++ mid ++ u)
      | none => none
    else some (w ++ mid)

/-- The digit loop of `number_to_korean` over the most-significant-first
digit list: each digit sits at position `rest.length + off` from the
right (`off` generalises the offset; the function is used at `off = 0`).
`none` anywhere models the raised `IndexError`. -/
def ntkAux : List Nat → Nat → Option String
  | [], _ => some ""
  | d :: rest, off =>
    match tok d (rest.length + off), ntkAux rest off with
    | some t, some r => some (t ++ r)
    | _, _ => none

/-- `number_to_korean(num)` of lines 104–128: iterate over the digits of
`str(int(num))` most significant first (`[0]` for zero, matching
`str(0) = "0"`), emit the tokens, join, and append 원정.  `none` models
the `IndexError` raised past the `조` group. -/
def number_to_korean (num : Nat) : Option String :=
  let num_str := if num = 0 then [0] else (digitsLSD num).reverse
  (ntkAux num_str 0).map (fun s => s ++ "원정")

/-- The Korean-amount step of `create_expense_report` on the summed
(integer) total: a negative total would make Python index `nums` with
`int('-')` and raise, modelled as `none`. -/
def koreanOf (total : Int) : Option String :=
  if total < 0 then none else number_to_korean total.toNat

/-- Insert a comma after every three digits of a least-significant-first
digit-character list. -/
def group3 : List Char → List Char
  | a :: b :: c :: d :: rest => a :: b :: c :: ',' :: group3 (d :: rest)
  | ds => ds

/-- Python's `format(n, ',')` on a natural number. -/
def natComma (n : Nat) : String :=
  String.mk (group3 (Nat.toDigits 10 n).reverse).reverse

/-- Python's `f"{n:,}"` on an integer: thousands separators, with a
leading minus sign for negatives. -/
def intComma (n : Int) : String :=
  if n < 0 then "-" ++ natComma n.natAbs else natComma n.natAbs

/-- Lines 135–140: one calculation line
`f"{item_desc} : {단가:,}원 × {수량}개 = {금액:,}원"`, where `item_desc`
carries the `({규격})` parenthetical exactly when the spec string is
truthy (nonempty). -/
def calcLine (row : ExpenseRow) : String :=
  let item_desc :=
    if row.gyugyeok ≠ "" then row.naeyong ++ "(" ++ row.gyugyeok ++ ")"
    else row.naeyong
  item_desc ++ " : " ++ intComma row.yesangDanga ++ "원 × " ++ toString row.suryang
    ++ "개 = " ++ intComma (row.geumaek.getD 0) ++ "원"

/-- The horizontal rule of the document templates. -/
def hrLine : String := String.mk (List.replicate 68 '─')

/-- One numbered item line of the 품의개요 document (lines 152–156). -/
def overviewItemLine (i : Nat) (row : ExpenseRow) : String :=
  if row.gyugyeok ≠ "" then
    "           " ++ toString i ++ ") " ++ row.naeyong ++ " (" ++ row.gyugyeok ++ ")\n"
  else
    "           " ++ toString i ++ ") " ++ row.naeyong ++ "\n"

/-- `create_expense_report(df, title, purpose)` of lines 96–193.  The
in-place `df['금액'] = …` mutation is state passing: the updated table
is the first component of the result.  `datetime.now()` is passed in as
`current_year` and `current_date`.  `none` models the function raising
(a total beyond the 조 group, or a negative total). -/
def create_expense_report (df : List ExpenseRow) (title purpose : String)
    (current_year : Nat) (current_date : String) :
    Option (List ExpenseRow × String × String) :=
  let df' := addAmount df
  let total_amount := totalOf df'
  match koreanOf total_amount with
  | none => none
  | some korean_amount =>
    let calculation_details := df'.map calcLine
    let overview :=
      title ++ "\n" ++ hrLine ++ "\n품 의\n개 요   " ++ title
        ++ "을 다음과 같이 구입하고자 합니다.\n        1. 목적  : " ++ purpose
        ++ "\n        2. 품목  : \n"
        ++ String.join (df'.enum.map (fun p => overviewItemLine (p.1 + 1) p.2))
        ++ "        3. 소요예산 : 금 " ++ intComma total_amount ++ "원(금" ++ korean_amount
        ++ ")\n        4. 산출근거 : \n"
        ++ String.join (calculation_details.map (fun d => "           - " ++ d ++ "\n"))
        ++ "\n붙임  지출품의서 1부.  끝."
    let expense_report :=
      hrLine ++ "\n                          지 출 품 의 서\n" ++ hrLine
        ++ "\n회계연도 : " ++ toString current_year ++ "년                             품의번호 : \n"
        ++ hrLine ++ "\n제   목  " ++ title ++ "\n" ++ hrLine
        ++ "\n품 의\n개 요   1. 일시 : " ++ current_date ++ "\n        2. " ++ title
        ++ "을 위한 물품 구입을 다음과 같이 실시하고자 합니다.\n           가. 목적 : " ++ purpose
        ++ "\n           나. 소요예산 : 금 " ++ intComma total_amount ++ "원(금" ++ korean_amount
        ++ ")\n           다. 산출내역 :\n"
        ++ String.join (calculation_details.enum.map
            (fun p => "               " ++ toString (p.1 + 1) ++ ") " ++ p.2 ++ "\n"))
        ++ "\n붙임  지출품의서 1부.  끝."
    some (df', overview, expense_report)

/-- Claim C3: in `create_expense_report` every row's computed 금액
equals 수량 × 예상단가 and the grand total is the sum of the per-row
amounts; both facts are stable under concatenating several images'
tables, and the table inside `create_expense_report` is exactly
`addAmount df`. -/
theorem claim_C3_amounts :
    (∀ df : List ExpenseRow,
        (addAmount df).map (fun r => r.geumaek) =
          df.map (fun r => some (r.suryang * r.yesangDanga))) ∧
    (∀ df : List ExpenseRow,
        totalOf (addAmount df) = (df.map (fun r => r.suryang * r.yesangDanga)).sum) ∧
    (∀ d1 d2 : List ExpenseRow,
        addAmount (d1 ++ d2) = addAmount d1 ++ addAmount d2 ∧
        totalOf (addAmount (d1 ++ d2)) =
          totalOf (addAmount d1) + totalOf (addAmount d2)) ∧
    (∀ (df : List ExpenseRow) (t p : String) (y : Nat) (d : String),
        (create_expense_report df t p y d).map (fun r => r.1) =
          (koreanOf (totalOf (addAmount df))).map (fun _ => addAmount df)) := by
  refine ⟨?_, ?_, ?_, ?_⟩
  · intro df
    simp [addAmount, List.map_map, Function.comp_def]
  · intro df
    simp [totalOf, addAmount, List.map_map, Function.comp_def]
  · intro d1 d2
    constructor
    · simp [addAmount]
    · simp [totalOf, addAmount]
  · intro df t p y d
    cases h : koreanOf (totalOf (addAmount df)) <;>
      simp [create_expense_report, h]

/-- Claim C7: each calculation line has the form
`{name}({spec}) : {unit price with separators}원 × {qty}개 = {amount with separators}원`,
with the `({spec})` parenthetical omitted exactly when 규격 is empty;
and the number formatting is thousands-separated. -/
theorem claim_C7_calc_line :
    (∀ row : ExpenseRow,
        calcLine row =
          (if row.gyugyeok = "" then row.naeyong
            else row.naeyong ++ "(" ++ row.gyugyeok ++ ")")
            ++ " : " ++ intComma row.yesangDanga ++ "원 × " ++ toString row.suryang
            ++ "개 = " ++ intComma (row.geumaek.getD 0) ++ "원") ∧
    intComma 500 = "500" ∧ intComma 1234567 = "1,234,567" := by
  refine ⟨?_, by decide, by decide⟩
  intro row
  by_cases h : row.gyugyeok = "" <;> simp [calcLine, h]

/-- Claim C9: `create_expense_report` updates the table it was given —
the returned table (the post-state of the in-place
`df['금액'] = df['수량'] * df['예상단가']`) has a 금액 column set (or
overwritten) to quantity × unit price on every row, while the row
count, order and all other columns are unchanged. -/
theorem claim_C9_mutation :
    (∀ df : List ExpenseRow, (addAmount df).length = df.length) ∧
    (∀ df : List ExpenseRow,
        (addAmount df).map (fun r => r.naeyong) = df.map (fun r => r.naeyong) ∧
        (addAmount df).map (fun r => r.gyugyeok) = df.map (fun r => r.gyugyeok) ∧
        (addAmount df).map (fun r => r.suryang) = df.map (fun r => r.suryang) ∧
        (addAmount df).map (fun r => r.yesangDanga) = df.map (fun r => r.yesangDanga)) ∧
    (∀ df : List ExpenseRow,
        (addAmount df).map (fun r => r.geumaek) =
          df.map (fun r => some (r.suryang * r.yesangDanga))) ∧
    (∀ (df : List ExpenseRow) (t p : String) (y : Nat) (d : String) (out),
        create_expense_report df t p y d = some out → out.1 = addAmount df) := by
  refine ⟨?_, ?_, ?_, ?_⟩
  · intro df
    simp [addAmount]
  · intro df
    refine ⟨?_, ?_, ?_, ?_⟩ <;> simp [addAmount, List.map_map, Function.comp_def]
  · intro df
    simp [addAmount, List.map_map, Function.comp_def]
  · intro df t p y d out h
    cases hk : koreanOf (totalOf (addAmount df)) with
    | none => simp [create_expense_report, hk] at h
    | some ka =>
      simp [create_expense_report, hk] at h
      rw [← h]

/-- Concrete one-row table for the C9 witness; its 금액 column already
holds a stale value, so the call overwrites it. -/
def c9df : List ExpenseRow := [⟨"볼펜", "", 3, 500, some 999⟩]

/-- The concrete output of `create_expense_report` on `c9df`. -/
def c9out : List ExpenseRow × String × String :=
  (create_expense_report c9df "교무실 물품 구입" "소모품 교체" 2026 "2026. 10. 12.").getD ([], "", "")

/-- Witness for C9: on a concrete table whose 금액 column holds a stale
999, the returned table is `addAmount c9df` — the column is overwritten
with 수량 × 예상단가. -/
theorem claim_C9_mutation_witness :
    create_expense_report c9df "교무실 물품 구입" "소모품 교체" 2026 "2026. 10. 12." =
      some c9out ∧
    c9out.1 = addAmount c9df :=
  ⟨rfl, claim_C9_mutation.2.2.2 c9df "교무실 물품 구입" "소모품 교체" 2026 "2026. 10. 12."
    c9out rfl⟩

/-- The fuel argument of `digitsLSDAux` is irrelevant once it covers the
input. -/
theorem digitsLSDAux_stable :
    ∀ f1 f2 n, n ≤ f1 → n ≤ f2 → digitsLSDAux f1 n = digitsLSDAux f2 n := by
  intro f1
  induction f1 with
  | zero =>
    intro f2 n h1 _h2
    have hn : n = 0 := by omega
    subst hn
    cases f2 <;> simp [digitsLSDAux]
  | succ m ih =>
    intro f2 n h1 h2
    cases n with
    | zero => cases f2 <;> simp [digitsLSDAux]
    | succ k =>
      cases f2 with
      | zero => omega
      | succ f2' =>
        simp only [digitsLSDAux, if_neg (Nat.succ_ne_zero k)]
        rw [ih f2' ((k + 1) / 10) (by omega) (by omega)]

/-- Recursion equation of `digitsLSD`. -/
theorem digitsLSD_succ (n : Nat) (h : n ≠ 0) :
    digitsLSD n = n % 10 :: digitsLSD (n / 10) := by
  cases n with
  | zero => exact absurd rfl h
  | succ k =>
    show digitsLSDAux (k + 1) (k + 1) = _
    simp only [digitsLSDAux, if_neg (Nat.succ_ne_zero k)]
    rw [digitsLSDAux_stable k ((k + 1) / 10) ((k + 1) / 10) (by omega) (by omega)]
    rfl

/-- The fuel argument of `groupsLSDAux` is irrelevant once it covers the
input. -/
theorem groupsLSDAux_stable :
    ∀ f1 f2 n, n ≤ f1 → n ≤ f2 → groupsLSDAux f1 n = groupsLSDAux f2 n := by
  intro f1
  induction f1 with
  | zero =>
    intro f2 n h1 _h2
    have hn : n = 0 := by omega
    subst hn
    cases f2 <;> simp [groupsLSDAux]
  | succ m ih =>
    intro f2 n h1 h2
    cases n with
    | zero => cases f2 <;> simp [groupsLSDAux]
    | succ k =>
      cases f2 with
      | zero => omega
      | succ f2' =>
        simp only [groupsLSDAux, if_neg (Nat.succ_ne_zero k)]
        rw [ih f2' ((k + 1) / 10000) (by omega) (by omega)]

/-- Recursion equation of `groupsLSD`. -/
theorem groupsLSD_succ (n : Nat) (h : n ≠ 0) :
    groupsLSD n = n % 10000 :: groupsLSD (n / 10000) := by
  cases n with
  | zero => exact absurd rfl h
  | succ k =>
    show groupsLSDAux (k + 1) (k + 1) = _
    simp only [groupsLSDAux, if_neg (Nat.succ_ne_zero k)]
    rw [groupsLSDAux_stable k ((k + 1) / 10000) ((k + 1) / 10000) (by omega) (by omega)]
    rfl

/-- Strict combination of two token strings: both must have succeeded
(no token after a raised `IndexError`). -/
def combineOS : Option String → Option String → Option String
  | some a, some b => some (a ++ b)
  | _, _ => none

theorem combineOS_assoc (a b c : Option String) :
    combineOS (combineOS a b) c = combineOS a (combineOS b c) := by
  cases a <;> cases b <;> cases c <;> simp [combineOS, String.append_assoc]

theorem combineOS_empty_left (a : Option String) : combineOS (some "") a = a := by
  cases a <;> simp [combineOS, String.empty_append]

theorem combineOS_empty_right (a : Option String) : combineOS a (some "") = a := by
  cases a <;> simp [combineOS, String.append_empty]

theorem combineOS_none_left (a : Option String) : combineOS none a = none := rfl

theorem combineOS_none_right (a : Option String) : combineOS a none = none := by
  cases a <;> rfl

/-- The digit loop over the least-significant-first digit list: the
digit at the head sits at position `p` from the right, and more
significant digits contribute their tokens first. -/
def ntkL : List Nat → Nat → Option String
  | [], _ => some ""
  | d :: rest, p => combineOS (ntkL rest (p + 1)) (tok d p)

/-- `ntkAux` as a `combineOS` step. -/
theorem ntkAux_cons (d : Nat) (rest : List Nat) (off : Nat) :
    ntkAux (d :: rest) off = combineOS (tok d (rest.length + off)) (ntkAux rest off) := by
  cases h1 : tok d (rest.length + off) <;> cases h2 : ntkAux rest off <;>
    simp [ntkAux, combineOS, h1, h2]

/-- `ntkAux` over an append splits, positions in the prefix being
shifted by the suffix length. -/
theorem ntkAux_append :
    ∀ (xs ys : List Nat) (off : Nat),
      ntkAux (xs ++ ys) off = combineOS (ntkAux xs (ys.length + off)) (ntkAux ys off) := by
  intro xs
  induction xs with
  | nil =>
    intro ys off
    simp [ntkAux, combineOS_empty_left]
  | cons d xs ih =>
    intro ys off
    rw [List.cons_append, ntkAux_cons, ih, ntkAux_cons, combineOS_assoc]
    have : (xs ++ ys).length + off = xs.length + (ys.length + off) := by
      simp [List.length_append]
      omega
    rw [this]

/-- The source's most-significant-first loop equals the
least-significant-first recursion over the reversed digit list. -/
theorem ntkAux_reverse : ∀ (ds : List Nat) (off : Nat), ntkAux ds.reverse off = ntkL ds off := by
  intro ds
  induction ds with
  | nil => intro off; rfl
  | cons d ds ih =>
    intro off
    rw [List.reverse_cons, ntkAux_append, ih]
    show combineOS (ntkL ds (1 + off)) (ntkAux [d] off) = _
    rw [ntkAux_cons]
    show combineOS (ntkL ds (1 + off)) (combineOS (tok d (0 + off)) (ntkAux [] off)) = _
    rw [show (0 : Nat) + off = off from by omega, show (1 : Nat) + off = off + 1 from by omega]
    show combineOS (ntkL ds (off + 1)) (combineOS (tok d off) (some "")) = _
    rw [combineOS_empty_right]
    rfl

/-- `ntkL` over an append splits, positions in the suffix being shifted
by the prefix length. -/
theorem ntkL_append :
    ∀ (xs ys : List Nat) (p : Nat),
      ntkL (xs ++ ys) p = combineOS (ntkL ys (p + xs.length)) (ntkL xs p) := by
  intro xs
  induction xs with
  | nil =>
    intro ys p
    simp [ntkL, combineOS_empty_right]
  | cons d xs ih =>
    intro ys p
    show combineOS (ntkL (xs ++ ys) (p + 1)) (tok d p) = _
    rw [ih, combineOS_assoc]
    have : p + 1 + xs.length = p + (d :: xs).length := by simp; omega
    rw [this]
    rfl

/-- A most-significant zero digit contributes nothing. -/
theorem ntkL_pad : ∀ (ds : List Nat) (p : Nat), ntkL (ds ++ [0]) p = ntkL ds p := by
  intro ds
  induction ds with
  | nil =>
    intro p
    show combineOS (ntkL [] (p + 1)) (tok 0 p) = some ""
    simp [ntkL, tok, combineOS]
  | cons d ds ih =>
    intro p
    show combineOS (ntkL (ds ++ [0]) (p + 1)) (tok d p) = _
    rw [ih]
    rfl

/-- Most-significant zero padding contributes nothing. -/
theorem ntkL_pad_many :
    ∀ (k : Nat) (ds : List Nat) (p : Nat), ntkL (ds ++ List.replicate k 0) p = ntkL ds p := by
  intro k
  induction k with
  | zero => intro ds p; simp
  | succ m ih =>
    intro ds p
    have : ds ++ List.replicate (m + 1) 0 = (ds ++ [0]) ++ List.replicate m 0 := by
      simp [List.replicate_succ]
    rw [this, ih, ntkL_pad]

/-- Modelled from the spec's wording for one digit of a 4-digit group:
a nonzero digit maps to its numeral word followed by its positional
unit word, a zero digit contributes no token. -/
def renderDigit (d : Nat) (u : String) : String :=
  if d = 0 then "" else nums.getD d "" ++ u

/-- Modelled from the spec's wording for one 4-digit group: digits from
most significant, with 천/백/십 inside the group. -/
def renderGroup (g : Nat) : String :=
  renderDigit (g / 1000 % 10) "천" ++ renderDigit (g / 100 % 10) "백"
    ++ renderDigit (g / 10 % 10) "십" ++ renderDigit (g % 10) ""

/-- The claim's reading of the cross-group units: every nonzero group
past the first carries its 만/억/조 word. -/
def renderGroupsClaim : List Nat → Nat → String
  | [], _ => ""
  | g :: rest, j =>
    renderGroupsClaim rest (j + 1)
      ++ (renderGroup g ++ (if g ≠ 0 ∧ 0 < j then units.getD j "" else ""))

/-- The amended reading, matching the code: the cross-group unit word is
emitted only together with a nonzero ones digit of its group. -/
def renderGroupsAmended : List Nat → Nat → String
  | [], _ => ""
  | g :: rest, j =>
    renderGroupsAmended rest (j + 1)
      ++ (renderGroup g ++ (if g % 10 ≠ 0 ∧ 0 < j then units.getD j "" else ""))

/-- The groupwise rendering of a number under the amended unit rule. -/
def koreanAmended (n : Nat) : String := renderGroupsAmended (groupsLSD n) 0

theorem tok_mod3 (d p : Nat) (h : p % 4 = 3) : tok d p = some (renderDigit d "천") := by
  by_cases hd : d = 0 <;> simp [tok, renderDigit, hd, h]

theorem tok_mod2 (d p : Nat) (h : p % 4 = 2) : tok d p = some (renderDigit d "백") := by
  by_cases hd : d = 0 <;> simp [tok, renderDigit, hd, h]

theorem tok_mod1 (d p : Nat) (h : p % 4 = 1) : tok d p = some (renderDigit d "십") := by
  by_cases hd : d = 0 <;> simp [tok, renderDigit, hd, h]

theorem tok_mod0 (d p : Nat) (h : p % 4 = 0) (hj : p / 4 ≤ 3) :
    tok d p =
      some (renderDigit d "" ++ (if d ≠ 0 ∧ 0 < p / 4 then units.getD (p / 4) "" else "")) := by
  have h4 : p / 4 = 0 ∨ p / 4 = 1 ∨ p / 4 = 2 ∨ p / 4 = 3 := by omega
  rcases h4 with h4 | h4 | h4 | h4 <;> by_cases hd : d = 0 <;>
    simp [tok, renderDigit, hd, h, h4, units, String.append_empty, String.empty_append]

/-- Value of the digit loop on one full 4-digit group starting at group
index `j ≤ 3`. -/
theorem ntkL_block (d0 d1 d2 d3 j : Nat) (hj : j ≤ 3) :
    ntkL [d0, d1, d2, d3] (4 * j) =
      some (renderDigit d3 "천" ++ renderDigit d2 "백" ++ renderDigit d1 "십"
        ++ renderDigit d0 "" ++ (if d0 ≠ 0 ∧ 0 < j then units.getD j "" else "")) := by
  have e3 : (4 * j + 1 + 1 + 1) % 4 = 3 := by omega
  have e2 : (4 * j + 1 + 1) % 4 = 2 := by omega
  have e1 : (4 * j + 1) % 4 = 1 := by omega
  have e0 : (4 * j) % 4 = 0 := by omega
  have ed : (4 * j) / 4 = j := by omega
  show combineOS
      (combineOS
        (combineOS (combineOS (some "") (tok d3 (4 * j + 1 + 1 + 1))) (tok d2 (4 * j + 1 + 1)))
        (tok d1 (4 * j + 1)))
      (tok d0 (4 * j)) = _
  rw [tok_mod3 d3 _ e3, tok_mod2 d2 _ e2, tok_mod1 d1 _ e1,
    tok_mod0 d0 _ e0 (by omega), ed]
  simp [combineOS, String.empty_append, String.append_assoc]

theorem digitsLSD_zero : digitsLSD 0 = [] := rfl

theorem groupsLSD_zero : groupsLSD 0 = [] := rfl

/-- Below 10000, the digit list padded with most-significant zeros is
the full 4-digit group, and the padding is invisible to the loop. -/
theorem ntkL_small (n p : Nat) (h : n < 10000) :
    ntkL (digitsLSD n) p = ntkL [n % 10, n / 10 % 10, n / 100 % 10, n / 1000 % 10] p := by
  rcases Nat.eq_zero_or_pos n with rfl | h0
  · show ntkL [] p = _
    norm_num
    rw [show [0, 0, 0, 0] = ([] : List Nat) ++ List.replicate 4 0 from rfl, ntkL_pad_many]
  rcases Nat.lt_or_ge n 10 with hA | hA
  · have e1 : n / 10 = 0 := by omega
    have e2 : n / 100 % 10 = 0 := by omega
    have e3 : n / 1000 % 10 = 0 := by omega
    rw [digitsLSD_succ n (by omega), e1, digitsLSD_zero, e2, e3]
    rw [show [n % 10, 0 % 10, 0, 0] = [n % 10] ++ List.replicate 3 0 from rfl,
      ntkL_pad_many]
  rcases Nat.lt_or_ge n 100 with hB | hB
  · have ha : n / 10 ≠ 0 := by omega
    have hb : n / 10 / 10 = 0 := by omega
    have e2 : n / 100 % 10 = 0 := by omega
    have e3 : n / 1000 % 10 = 0 := by omega
    rw [digitsLSD_succ n (by omega), digitsLSD_succ (n / 10) ha, hb, digitsLSD_zero, e2, e3]
    rw [show [n % 10, n / 10 % 10, 0, 0] = [n % 10, n / 10 % 10] ++ List.replicate 2 0 from rfl,
      ntkL_pad_many]
  rcases Nat.lt_or_ge n 1000 with hC | hC
  · have ha : n / 10 ≠ 0 := by omega
    have hb : n / 10 / 10 = n / 100 := by omega
    have hc : n / 100 ≠ 0 := by omega
    have hd : n / 100 / 10 = 0 := by omega
    have e3 : n / 1000 % 10 = 0 := by omega
    rw [digitsLSD_succ n (by omega), digitsLSD_succ (n / 10) ha, hb,
      digitsLSD_succ (n / 100) hc, hd, digitsLSD_zero, e3]
    rw [show [n % 10, n / 10 % 10, n / 100 % 10, 0] =
        [n % 10, n / 10 % 10, n / 100 % 10] ++ List.replicate 1 0 from rfl, ntkL_pad_many]
  · have ha : n / 10 ≠ 0 := by omega
    have hb : n / 10 / 10 = n / 100 := by omega
    have hc : n / 100 ≠ 0 := by omega
    have hd : n / 100 / 10 = n / 1000 := by omega
    have he : n / 1000 ≠ 0 := by omega
    have hf : n / 1000 / 10 = 0 := by omega
    rw [digitsLSD_succ n (by omega), digitsLSD_succ (n / 10) ha, hb,
      digitsLSD_succ (n / 100) hc, hd, digitsLSD_succ (n / 1000) he, hf, digitsLSD_zero]

/-- Above 10000, the digit list splits off one full 4-digit group. -/
theorem digitsLSD_split (n : Nat) (h : 10000 ≤ n) :
    digitsLSD n =
      [n % 10, n / 10 % 10, n / 100 % 10, n / 1000 % 10] ++ digitsLSD (n / 10000) := by
  have h2 : n / 10 ≠ 0 := by omega
  have h3 : n / 10 / 10 = n / 100 := by omega
  have h4 : n / 100 ≠ 0 := by omega
  have h5 : n / 100 / 10 = n / 1000 := by omega
  have h6 : n / 1000 ≠ 0 := by omega
  have h7 : n / 1000 / 10 = n / 10000 := by omega
  rw [digitsLSD_succ n (by omega), digitsLSD_succ (n / 10) h2, h3,
    digitsLSD_succ (n / 100) h4, h5, digitsLSD_succ (n / 1000) h6, h7]
  rfl

/-- A number below `10000 ^ k` has at most `k` base-10000 groups. -/
theorem groupsLSD_length_le : ∀ k n : Nat, n < 10000 ^ k → (groupsLSD n).length ≤ k := by
  intro k
  induction k with
  | zero =>
    intro n h
    have : n = 0 := by
      simp at h
      omega
    subst this
    simp [groupsLSD_zero]
  | succ m ih =>
    intro n h
    rcases Nat.eq_zero_or_pos n with rfl | hpos
    · simp [groupsLSD_zero]
    · rw [groupsLSD_succ n (by omega)]
      simp only [List.length_cons]
      have hdiv : n / 10000 < 10000 ^ m := by
        rw [pow_succ, mul_comm] at h
        exact Nat.div_lt_of_lt_mul h
      exact Nat.succ_le_succ (ih _ hdiv)

/-- Main refinement: on at most four groups (so no `IndexError`), the
digit loop renders exactly the groupwise decomposition with the amended
cross-group-unit rule. -/
theorem ntkL_groups :
    ∀ n j : Nat, (groupsLSD n).length + j ≤ 4 →
      ntkL (digitsLSD n) (4 * j) = some (renderGroupsAmended (groupsLSD n) j) := by
  intro n
  induction n using Nat.strong_induction_on with
  | _ n ih =>
    intro j hlen
    rcases Nat.eq_zero_or_pos n with rfl | hpos
    · rw [digitsLSD_zero, groupsLSD_zero]
      rfl
    · have hg : groupsLSD n = n % 10000 :: groupsLSD (n / 10000) := groupsLSD_succ n (by omega)
      have hj : j ≤ 3 := by
        rw [hg] at hlen
        simp only [List.length_cons] at hlen
        omega
      rcases Nat.lt_or_ge n 10000 with hsm | hlg
      · have hq : n / 10000 = 0 := by omega
        have hmod : n % 10000 = n := by omega
        rw [ntkL_small n _ hsm, ntkL_block _ _ _ _ j hj, hg, hq, groupsLSD_zero, hmod]
        simp [renderGroupsAmended, renderGroup, String.empty_append, String.append_assoc]
      · have hnq : n / 10000 < n := by omega
        have hlen' : (groupsLSD (n / 10000)).length + (j + 1) ≤ 4 := by
          rw [hg] at hlen
          simp only [List.length_cons] at hlen
          omega
        rw [digitsLSD_split n hlg, ntkL_append]
        have hpos4 : 4 * j + ([n % 10, n / 10 % 10, n / 100 % 10, n / 1000 % 10] : List Nat).length
            = 4 * (j + 1) := by
          simp
          omega
        rw [hpos4, ih (n / 10000) hnq (j + 1) hlen', ntkL_block _ _ _ _ j hj, hg]
        have d3e : n % 10000 / 1000 % 10 = n / 1000 % 10 := by omega
        have d2e : n % 10000 / 100 % 10 = n / 100 % 10 := by omega
        have d1e : n % 10000 / 10 % 10 = n / 10 % 10 := by omega
        have d0e : n % 10000 % 10 = n % 10 := by omega
        simp [renderGroupsAmended, renderGroup, combineOS, d3e, d2e, d1e, d0e,
          String.append_assoc]

/-- Helper: below `10 ^ 16` (through the 조 group) `number_to_korean`
returns the groupwise rendering with the amended unit rule, plus 원정. -/
theorem number_to_korean_renders (n : Nat) (h : n < 10 ^ 16) :
    number_to_korean n = some (koreanAmended n ++ "원정") := by
  rcases Nat.eq_zero_or_pos n with rfl | hpos
  · rfl
  · have hb : n < 10000 ^ 4 := by
      have he : (10000 : Nat) ^ 4 = 10 ^ 16 := by norm_num
      omega
    have hlen : (groupsLSD n).length + 0 ≤ 4 := by
      have := groupsLSD_length_le 4 n hb
      omega
    have hmain := ntkL_groups n 0 hlen
    rw [show 4 * 0 = 0 from rfl] at hmain
    have hne : ¬(n = 0) := by omega
    simp only [number_to_korean, if_neg hne]
    rw [ntkAux_reverse, hmain]
    rfl

/-- Counterexample for claim C4: at 100000 the code emits no cross-group
unit word at all (the 만 of the ten's digit group is dropped because the
group's ones digit is zero), so the output is 일십원정 where the claimed
groupwise reading gives 일십만원정. -/
theorem claim_C4_counterexample :
    number_to_korean 100000 = some "일십원정" ∧
    renderGroupsClaim (groupsLSD 100000) 0 ++ "원정" = "일십만원정" ∧
    number_to_korean 100000 ≠ some (renderGroupsClaim (groupsLSD 100000) 0 ++ "원정") :=
  ⟨by decide, by decide, by decide⟩

/-- Claim C4 as amended: for every input up to trillions magnitude
(below `10 ^ 16`), `number_to_korean` renders the 4-digit groups from
the least-significant digit with numeral words for nonzero digits,
천/백/십 inside groups, no token for zero digits, the 원정 suffix, and
the cross-group words 만/억/조 emitted only together with a nonzero
ones digit of their group; in particular 12000 renders as 일만이천원정. -/
theorem claim_C4_korean_decomposition :
    (∀ n : Nat, n < 10 ^ 16 → number_to_korean n = some (koreanAmended n ++ "원정")) ∧
    number_to_korean 12000 = some "일만이천원정" :=
  ⟨fun n h => number_to_korean_renders n h, by decide⟩

/-- Witness for C4 at the spec's example input 12000. -/
theorem claim_C4_korean_decomposition_witness :
    12000 < 10 ^ 16 ∧ number_to_korean 12000 = some (koreanAmended 12000 ++ "원정") :=
  ⟨by decide, claim_C4_korean_decomposition.1 12000 (by decide)⟩

/-- Counterexample for claim C5: `number_to_korean 0` is 원정, not the
claimed 영원정 — the zero digit emits no numeral token, so only the
suffix remains. -/
theorem claim_C5_counterexample :
    number_to_korean 0 = some "원정" ∧ number_to_korean 0 ≠ some "영원정" :=
  ⟨by decide, by decide⟩

/-- Claim C5 as amended: `number_to_korean 0 = "원정"` (no 영 token is
emitted), and the function is total — deterministic by construction —
on all inputs up to at least `10 ^ 12`. -/
theorem claim_C5_zero_and_totality :
    number_to_korean 0 = some "원정" ∧
    (∀ n : Nat, n ≤ 10 ^ 12 → (number_to_korean n).isSome = true) := by
  refine ⟨by decide, ?_⟩
  intro n h
  have hlt : n < 10 ^ 16 := by
    have he : (10 : Nat) ^ 12 < 10 ^ 16 := by norm_num
    omega
  rw [number_to_korean_renders n hlt]
  rfl

/-- Witness for C5 at 12000. -/
theorem claim_C5_zero_and_totality_witness :
    12000 ≤ 10 ^ 12 ∧ (number_to_korean 12000).isSome = true :=
  ⟨by decide, claim_C5_zero_and_totality.2 12000 (by decide)⟩

/-- Indexed lookup into the digit list. -/
theorem digitsLSD_getElem? :
    ∀ i n : Nat, i < (digitsLSD n).length → (digitsLSD n)[i]? = some (n / 10 ^ i % 10) := by
  intro i
  induction i with
  | zero =>
    intro n h
    have hn : n ≠ 0 := by
      intro hz
      subst hz
      simp [digitsLSD_zero] at h
    rw [digitsLSD_succ n hn]
    simp
  | succ i ih =>
    intro n h
    have hn : n ≠ 0 := by
      intro hz
      subst hz
      simp [digitsLSD_zero] at h
    rw [digitsLSD_succ n hn]
    simp only [List.getElem?_cons_succ]
    have hlen : i < (digitsLSD (n / 10)).length := by
      rw [digitsLSD_succ n hn] at h
      simp only [List.length_cons] at h
      omega
    rw [ih (n / 10) hlen, Nat.div_div_eq_div_mul, ← pow_succ']

/-- A number at least `10 ^ m` has more than `m` digits. -/
theorem digitsLSD_length_gt : ∀ m n : Nat, 10 ^ m ≤ n → m < (digitsLSD n).length := by
  intro m
  induction m with
  | zero =>
    intro n h
    simp at h
    rw [digitsLSD_succ n (by omega)]
    simp
  | succ m ih =>
    intro n h
    have h0 : (0 : Nat) < 10 ^ (m + 1) := pow_pos (by norm_num) _
    have hn : n ≠ 0 := by omega
    rw [digitsLSD_succ n hn]
    simp only [List.length_cons]
    have hdiv : 10 ^ m ≤ n / 10 := by
      rw [Nat.le_div_iff_mul_le (by norm_num : (0 : Nat) < 10)]
      have he : 10 ^ m * 10 = 10 ^ (m + 1) := (pow_succ 10 m).symm
      omega
    exact Nat.succ_lt_succ (ih _ hdiv)

/-- One failing token (the raised `IndexError`) makes the whole digit
loop fail. -/
theorem ntkL_eq_none :
    ∀ (ds : List Nat) (p i d : Nat),
      ds[i]? = some d → tok d (p + i) = none → ntkL ds p = none := by
  intro ds
  induction ds with
  | nil =>
    intro p i d hd _
    simp at hd
  | cons a rest ih =>
    intro p i d hd htok
    cases i with
    | zero =>
      simp only [List.getElem?_cons_zero] at hd
      injection hd with hd
      subst hd
      rw [Nat.add_zero] at htok
      show combineOS (ntkL rest (p + 1)) (tok a p) = none
      rw [htok, combineOS_none_right]
    | succ i =>
      simp only [List.getElem?_cons_succ] at hd
      have hrest : ntkL rest (p + 1) = none := by
        apply ih (p + 1) i d hd
        rw [show p + 1 + i = p + (i + 1) from by omega]
        exact htok
      show combineOS (ntkL rest (p + 1)) (tok a p) = none
      rw [hrest, combineOS_none_left]

/-- Claim C10: for an input of 17 or more decimal digits — the group
index `k ≥ 4` with `10000 ^ k ≤ n < 10000 ^ (k+1)` marks the leading
group — whose leading group has a nonzero ones digit, the lookup
`units[unit_pos]` is out of range and `number_to_korean` raises
(returns `none`) instead of producing a string. -/
theorem claim_C10_index_overflow (n k : Nat) (hk : 4 ≤ k) (h1 : 10000 ^ k ≤ n)
    (_hub : n < 10000 ^ (k + 1)) (h3 : n / 10000 ^ k % 10 ≠ 0) :
    number_to_korean n = none := by
  have hpow : (10000 : Nat) ^ k = 10 ^ (4 * k) := by
    rw [show (10000 : Nat) = 10 ^ 4 from by norm_num, ← pow_mul]
  have h1' : 10 ^ (4 * k) ≤ n := by
    rw [← hpow]
    exact h1
  have h3' : n / 10 ^ (4 * k) % 10 ≠ 0 := by
    rw [← hpow]
    exact h3
  have hlen : 4 * k < (digitsLSD n).length := digitsLSD_length_gt (4 * k) n h1'
  have hdig : (digitsLSD n)[4 * k]? = some (n / 10 ^ (4 * k) % 10) :=
    digitsLSD_getElem? (4 * k) n hlen
  have htok : tok (n / 10 ^ (4 * k) % 10) (0 + 4 * k) = none := by
    have hm : (4 * k) % 4 = 0 := by omega
    have hd4 : (4 * k) / 4 = k := by omega
    have hu : units[k]? = none := by
      apply List.getElem?_eq_none
      show units.length ≤ k
      simp [units]
      omega
    rw [show 0 + 4 * k = 4 * k from by omega]
    simp [tok, h3', hm, hd4, hu, show 0 < k from by omega]
  have hnone : ntkL (digitsLSD n) 0 = none :=
    ntkL_eq_none (digitsLSD n) 0 (4 * k) _ hdig htok
  have hne : ¬(n = 0) := by
    have : (0 : Nat) < 10000 ^ k := pow_pos (by norm_num) _
    omega
  simp only [number_to_korean, if_neg hne]
  rw [ntkAux_reverse, hnone]
  rfl

/-- Witness for C10 at `n = 10 ^ 16`, the smallest 17-digit number. -/
theorem claim_C10_index_overflow_witness :
    4 ≤ 4 ∧ 10000 ^ 4 ≤ 10 ^ 16 ∧ (10 : Nat) ^ 16 < 10000 ^ (4 + 1) ∧
    (10 : Nat) ^ 16 / 10000 ^ 4 % 10 ≠ 0 ∧ number_to_korean (10 ^ 16) = none :=
  ⟨by decide, by decide, by decide, by decide,
   claim_C10_index_overflow (10 ^ 16) 4 (by decide) (by decide) (by decide) (by decide)⟩
